import Mathlib

/-!
# Verification of the rayflow GPU-resident scene store and picking pipeline

Shallow embedding of the core of the `rayflow` editor:

* `RayObject` / `RayMarcher` from `src/engine/webgpu/ray-object.ts` and
  `src/engine/webgpu/ray-march.ts`: the object registry (insertion,
  swap-compaction removal, buffer growth, sync, selection, picking readback).
* `Engine` from `src/engine/engine.ts`: the façade.
* `Camera.orbit` from `src/engine/webgpu/camera.ts`, over the reals.
* The picking part of the ray-marching WGSL shader (latest draft), over the
  reals.

Modelling conventions:

* JS numbers stored in object attribute records are modelled as `Int`
  (byte-for-byte equality of serialized records becomes equality of
  `GpuRecord`); shader and camera arithmetic is modelled over `ℝ`.
* GPU buffers are modelled per-record: `buf : Nat → GpuRecord` gives the
  record stored at each slot of the object attribute buffer, `bufBytes` its
  byte size and `bufGen` a generation counter bumped on reallocation
  (a `writeBuffer`/`copyBufferToBuffer` whose target range exceeds the buffer
  or whose buffer handle is stale is a WebGPU validation error: the write is
  dropped and `writeError` is set).
* Object identity (`===` in TS) is modelled by a `Nat` id; the per-object
  mutable fields (`_index`, `_objectBuffer`/`_device` linkage, attributes)
  live in `store : Nat → RayObjectState`.
* `activeIdxUniform` models the retained uniform value
  `lastUniforms.activeObjectIdx ?? -1` that every uniform flush writes.
-/

/-- A 3-component attribute vector (position / rotation / scale / color). -/
structure Vec3i where
  x : Int
  y : Int
  z : Int
deriving DecidableEq, Repr

def Vec3i.zero : Vec3i := ⟨0, 0, 0⟩

/-- The fixed-stride serialized attribute record `RayObject.sync` uploads:
position, rotation, scale, color (each padded to 16 bytes), primitive, id. -/
structure GpuRecord where
  position : Vec3i
  rotation : Vec3i
  scale : Vec3i
  color : Vec3i
  primitive : Nat
  oid : Nat
deriving DecidableEq, Repr

/-- A zero-filled record: the content of freshly created (zero-initialized)
WebGPU buffer memory. -/
def GpuRecord.zero : GpuRecord :=
  { position := .zero, rotation := .zero, scale := .zero, color := .zero
    primitive := 0, oid := 0 }

namespace RayObject

/-- `RayObject.GPU_DATA_SIZE_WPAD_BYTES` from `ray-object.ts`. -/
def GPU_DATA_SIZE_WPAD_BYTES : Nat := 80

end RayObject

/-- The mutable per-object state of a `RayObject`: its attribute fields and
the GPU linkage fields set by the registry (`_objectBuffer`/`_device`
modelled as the generation of the linked buffer, and `_index`). -/
structure RayObjectState where
  attrs : GpuRecord
  link : Option Nat
  index : Option Nat
deriving DecidableEq, Repr

/-- State of an object that was never added (or was destroyed): no GPU
linkage. -/
def RayObjectState.blank : RayObjectState :=
  { attrs := GpuRecord.zero, link := none, index := none }

/-- Hit kind decoded by `readCollisionBuffer` (`typeStr`). -/
inductive HitType where
  | object
  | gizmo
deriving DecidableEq, Repr

/-- The decoded `IntersectItem` cached in `lastCollision`. -/
structure IntersectItem where
  itype : Option HitType
  idx : Int
  obj : Option Nat
deriving DecidableEq, Repr

/-- GPU-side actions issued by `readCollisionBuffer`, used to state that a
dropped request performs none of them. -/
inductive GpuAction where
  | copyBufferToBuffer
  | submit
  | mapBuffer
  | unmapBuffer
deriving DecidableEq, Repr

/-- The state of a `RayMarcher` (from `ray-march.ts`). -/
structure RayMarcher where
  /-- `this.objects`: the CPU array, as a list of object ids. -/
  objs : List Nat
  /-- The mutable fields of every `RayObject`, by id. -/
  store : Nat → RayObjectState
  /-- Generation of the current `objectBuffer` (bumped when growth replaces
  it). -/
  bufGen : Nat
  /-- `this.objectBuffer.size` in bytes. -/
  bufBytes : Nat
  /-- Contents of the current `objectBuffer`, one record per slot. -/
  buf : Nat → GpuRecord
  /-- The value stored in `objectCountBuffer`. -/
  countUniform : Nat
  /-- `this._activeObject` (uninitialized or null ↦ `none`). -/
  active : Option Nat
  /-- The retained `lastUniforms.activeObjectIdx ?? -1`. -/
  activeIdxUniform : Int
  /-- `this.collisionPending`. -/
  collisionPending : Bool
  /-- `this.lastCollision`. -/
  lastCollision : Option IntersectItem
  /-- Set when a GPU write was rejected by validation (out-of-bounds or
  stale buffer handle). -/
  writeError : Bool

namespace RayMarcher

/-- The state after the `RayMarcher` constructor: empty object list, a
`80 * 128`-byte zero-filled object buffer. -/
def init : RayMarcher where
  objs := []
  store := fun _ => RayObjectState.blank
  bufGen := 0
  bufBytes := RayObject.GPU_DATA_SIZE_WPAD_BYTES * 128
  buf := fun _ => GpuRecord.zero
  countUniform := 0
  active := none
  activeIdxUniform := -1
  collisionPending := false
  lastCollision := none
  writeError := false

/-- Mutating an object's attribute fields (setting `position` etc. on the
`RayObject`, or the constructor initializing them). -/
def setAttrs (m : RayMarcher) (oid : Nat) (a : GpuRecord) : RayMarcher :=
  { m with store := fun o => if o = oid then { m.store o with attrs := a } else m.store o }

/-- `RayObject.sync` (from `ray-object.ts`): no-op unless `_device`,
`_objectBuffer` and `_index` are all set; otherwise uploads the serialized
record at `_index * GPU_DATA_SIZE_WPAD_BYTES` into the linked buffer.  A
write to a stale (destroyed) buffer or past the end of the buffer is a
validation error and is dropped. -/
def syncObj (m : RayMarcher) (oid : Nat) : RayMarcher :=
  let st := m.store oid
  match st.link, st.index with
  | some g, some i =>
    if g = m.bufGen ∧ (i + 1) * RayObject.GPU_DATA_SIZE_WPAD_BYTES ≤ m.bufBytes then
      { m with buf := fun k => if k = i then st.attrs else m.buf k }
    else
      { m with writeError := true }
  | _, _ => m

/-- Effect of `RayObject.destroy` on an object's state: clears the GPU
linkage fields and zeroes the attribute vectors (`primitive` and the
readonly `id` are kept). -/
def destroyedState (st : RayObjectState) : RayObjectState :=
  { attrs := { st.attrs with
                position := .zero, rotation := .zero
                scale := .zero, color := .zero }
    link := none, index := none }

/-- `RayObject.destroy`, lifted to the marcher state. -/
def destroyObj (m : RayMarcher) (oid : Nat) : RayMarcher :=
  { m with store := fun o =>
      if o = oid then destroyedState (m.store o) else m.store o }

/-- `RayMarcher.selectObject`: writes `obj?.index ?? -1` into the retained
uniforms and stores the active object. -/
def selectObject (m : RayMarcher) (o : Option Nat) : RayMarcher :=
  let idx : Int :=
    match o with
    | none => -1
    | some oid =>
      match (m.store oid).index with
      | none => -1
      | some i => (i : Int)
  { m with activeIdxUniform := idx, active := o }

/-- The `copyBufferToBuffer` pair in `removeObject` (via the `temp` buffer):
copies the record at slot `src` of the object buffer over slot `dst`.
Out-of-bounds copies are validation errors and do nothing. -/
def copySlot (m : RayMarcher) (src dst : Nat) : RayMarcher :=
  if (src + 1) * RayObject.GPU_DATA_SIZE_WPAD_BYTES ≤ m.bufBytes ∧
      (dst + 1) * RayObject.GPU_DATA_SIZE_WPAD_BYTES ≤ m.bufBytes then
    { m with buf := fun k => if k = dst then m.buf src else m.buf k }
  else
    { m with writeError := true }

/-- `RayMarcher.addObject` (from `ray-march.ts`).  Note the growth guard
compares the object count against the buffer size in bytes, exactly as the
source does (`this.objects.length >= this.objectBuffer.size`). -/
def addObject (m : RayMarcher) (oid : Nat) : RayMarcher :=
  let m1 :=
    if m.objs.length ≥ m.bufBytes then
      { m with
        bufBytes := m.bufBytes * 2
        bufGen := m.bufGen + 1
        buf := fun k =>
          if (k + 1) * RayObject.GPU_DATA_SIZE_WPAD_BYTES ≤ m.bufBytes then m.buf k
          else GpuRecord.zero }
    else m
  let m2 := { m1 with
    store := fun o =>
      if o = oid then
        { m1.store o with link := some m1.bufGen, index := some m1.objs.length }
      else m1.store o
    objs := m1.objs ++ [oid] }
  let m3 := { m2 with countUniform := m2.objs.length }
  syncObj m3 oid

/-- Constructing a `RayObject` with given attributes and immediately
`addObject`-ing it. -/
def createAndAdd (m : RayMarcher) (oid : Nat) (a : GpuRecord) : RayMarcher :=
  addObject (setAttrs m oid a) oid

/-- `RayMarcher.removeObject` (from `ray-march.ts`): guard on `_index`; if
the object is not last, copy the last record over its slot, reassign the
last object's `_index` and CPU position, and re-select it if it was active;
pop; update the count uniform; clear selection if the removed object was
active; destroy the removed object. -/
def removeObject (m : RayMarcher) (oid : Nat) : RayMarcher :=
  match (m.store oid).index with
  | none => m
  | some idx =>
    if idx < m.objs.length then
      let lastIdx := m.objs.length - 1
      let m1 :=
        if idx = lastIdx then m
        else
          let lastId := m.objs.getD lastIdx 0
          let m2 := copySlot m lastIdx idx
          let m3 := { m2 with
            store := fun o =>
              if o = lastId then { m2.store o with index := some idx } else m2.store o
            objs := m2.objs.set idx lastId }
          if m3.active = some lastId then selectObject m3 (some lastId) else m3
      let m4 := { m1 with objs := m1.objs.dropLast }
      let m5 := { m4 with countUniform := m4.objs.length }
      let m6 := if m5.active = some oid then selectObject m5 none else m5
      destroyObj m6 oid
    else m

/-- Decoding of the two scalars read back from the staging buffer into an
`IntersectItem` (the `switch` at the end of `readCollisionBuffer`). -/
def decodeCollision (m : RayMarcher) (raw : Int × Int) : IntersectItem :=
  let itype : Option HitType :=
    if raw.1 = 0 then some .object
    else if raw.1 = 1 then some .gizmo
    else none
  { itype := itype
    idx := raw.2
    obj := if raw.1 = 0 ∧ 0 ≤ raw.2 then m.objs[raw.2.toNat]? else none }

/-- `RayMarcher.readCollisionBuffer`: if a readback is pending the call
returns at once (no copy, no submit, no map, state untouched); otherwise it
copies the hit buffer into the staging buffer, submits, maps, reads the two
scalars (`raw`, supplied here as the staged content), unmaps, clears the
pending flag and caches the decoded result. -/
def readCollisionBuffer (m : RayMarcher) (raw : Int × Int) :
    RayMarcher × List GpuAction :=
  if m.collisionPending then (m, [])
  else
    ({ m with
        collisionPending := false
        lastCollision := some (decodeCollision m raw) },
      [.copyBufferToBuffer, .submit, .mapBuffer, .unmapBuffer])

end RayMarcher

/-- The `Engine` façade (from `engine.ts`). -/
structure Engine where
  marcher : RayMarcher
  /-- `this._activeObject` of the engine. -/
  engActive : Option Nat

namespace Engine

def init : Engine := { marcher := RayMarcher.init, engActive := none }

/-- `Engine.selectedObject` getter. -/
def selectedObject (e : Engine) : Option Nat := e.engActive

/-- `Engine.addObject`: forwarded verbatim to the ray marcher. -/
def addObject (e : Engine) (oid : Nat) (a : GpuRecord) : Engine :=
  { e with marcher := e.marcher.createAndAdd oid a }

/-- `Engine.removeObject`: forwarded verbatim to the ray marcher; the
engine's own selection pointer is not touched. -/
def removeObject (e : Engine) (oid : Nat) : Engine :=
  { e with marcher := e.marcher.removeObject oid }

/-- `Engine.selectObject`: forwards and updates the engine's pointer. -/
def selectObject (e : Engine) (o : Option Nat) : Engine :=
  { marcher := e.marcher.selectObject o, engActive := o }

end Engine

/-- Registry operations, for stating properties of all add/remove/select
sequences. -/
inductive Op where
  | add (oid : Nat) (a : GpuRecord)
  | remove (oid : Nat)
  | select (o : Option Nat)
deriving DecidableEq, Repr

def applyOp (m : RayMarcher) : Op → RayMarcher
  | .add oid a => m.createAndAdd oid a
  | .remove oid => m.removeObject oid
  | .select o => m.selectObject o

def applyOps (m : RayMarcher) : List Op → RayMarcher
  | [] => m
  | op :: rest => applyOps (applyOp m op) rest

/-- Well-formedness of one operation: an added object is fresh (TS object
identity: a newly constructed `RayObject` is a new reference), and a
selected object is live or null. -/
def okOp (m : RayMarcher) : Op → Bool
  | .add oid _ => !(m.objs.contains oid)
  | .remove _ => true
  | .select none => true
  | .select (some oid) => m.objs.contains oid

def okSeq (m : RayMarcher) : List Op → Bool
  | [] => true
  | op :: rest => okOp m op && okSeq (applyOp m op) rest

/-! ## Basic equations for the registry operations -/

attribute [ext] RayMarcher

namespace RayMarcher

@[simp] theorem selectObject_objs (m : RayMarcher) (o : Option Nat) :
    (m.selectObject o).objs = m.objs := rfl
@[simp] theorem selectObject_store (m : RayMarcher) (o : Option Nat) :
    (m.selectObject o).store = m.store := rfl
@[simp] theorem selectObject_buf (m : RayMarcher) (o : Option Nat) :
    (m.selectObject o).buf = m.buf := rfl
@[simp] theorem selectObject_bufBytes (m : RayMarcher) (o : Option Nat) :
    (m.selectObject o).bufBytes = m.bufBytes := rfl
@[simp] theorem selectObject_bufGen (m : RayMarcher) (o : Option Nat) :
    (m.selectObject o).bufGen = m.bufGen := rfl
@[simp] theorem selectObject_countUniform (m : RayMarcher) (o : Option Nat) :
    (m.selectObject o).countUniform = m.countUniform := rfl
@[simp] theorem selectObject_collisionPending (m : RayMarcher) (o : Option Nat) :
    (m.selectObject o).collisionPending = m.collisionPending := rfl
@[simp] theorem selectObject_lastCollision (m : RayMarcher) (o : Option Nat) :
    (m.selectObject o).lastCollision = m.lastCollision := rfl
@[simp] theorem selectObject_writeError (m : RayMarcher) (o : Option Nat) :
    (m.selectObject o).writeError = m.writeError := rfl
@[simp] theorem selectObject_active (m : RayMarcher) (o : Option Nat) :
    (m.selectObject o).active = o := rfl

@[simp] theorem selectObject_activeIdx_none (m : RayMarcher) :
    (m.selectObject none).activeIdxUniform = -1 := rfl

theorem selectObject_activeIdx_some (m : RayMarcher) (oid i : Nat)
    (h : (m.store oid).index = some i) :
    (m.selectObject (some oid)).activeIdxUniform = (i : Int) := by
  simp [selectObject, h]

@[simp] theorem setAttrs_objs (m : RayMarcher) (oid : Nat) (a : GpuRecord) :
    (m.setAttrs oid a).objs = m.objs := rfl
@[simp] theorem setAttrs_countUniform (m : RayMarcher) (oid : Nat) (a : GpuRecord) :
    (m.setAttrs oid a).countUniform = m.countUniform := rfl
@[simp] theorem setAttrs_active (m : RayMarcher) (oid : Nat) (a : GpuRecord) :
    (m.setAttrs oid a).active = m.active := rfl
@[simp] theorem setAttrs_activeIdx (m : RayMarcher) (oid : Nat) (a : GpuRecord) :
    (m.setAttrs oid a).activeIdxUniform = m.activeIdxUniform := rfl
@[simp] theorem setAttrs_bufBytes (m : RayMarcher) (oid : Nat) (a : GpuRecord) :
    (m.setAttrs oid a).bufBytes = m.bufBytes := rfl
@[simp] theorem setAttrs_bufGen (m : RayMarcher) (oid : Nat) (a : GpuRecord) :
    (m.setAttrs oid a).bufGen = m.bufGen := rfl
@[simp] theorem setAttrs_buf (m : RayMarcher) (oid : Nat) (a : GpuRecord) :
    (m.setAttrs oid a).buf = m.buf := rfl

theorem setAttrs_store_index (m : RayMarcher) (oid o : Nat) (a : GpuRecord) :
    ((m.setAttrs oid a).store o).index = (m.store o).index := by
  unfold setAttrs; dsimp only; split <;> rfl

@[simp] theorem syncObj_objs (m : RayMarcher) (oid : Nat) :
    (m.syncObj oid).objs = m.objs := by
  unfold syncObj
  dsimp only
  split
  · split <;> rfl
  · rfl

@[simp] theorem syncObj_store (m : RayMarcher) (oid : Nat) :
    (m.syncObj oid).store = m.store := by
  unfold syncObj
  dsimp only
  split
  · split <;> rfl
  · rfl

@[simp] theorem syncObj_countUniform (m : RayMarcher) (oid : Nat) :
    (m.syncObj oid).countUniform = m.countUniform := by
  unfold syncObj
  dsimp only
  split
  · split <;> rfl
  · rfl

@[simp] theorem syncObj_active (m : RayMarcher) (oid : Nat) :
    (m.syncObj oid).active = m.active := by
  unfold syncObj
  dsimp only
  split
  · split <;> rfl
  · rfl

@[simp] theorem syncObj_activeIdx (m : RayMarcher) (oid : Nat) :
    (m.syncObj oid).activeIdxUniform = m.activeIdxUniform := by
  unfold syncObj
  dsimp only
  split
  · split <;> rfl
  · rfl

@[simp] theorem destroyObj_objs (m : RayMarcher) (oid : Nat) :
    (m.destroyObj oid).objs = m.objs := rfl
@[simp] theorem destroyObj_buf (m : RayMarcher) (oid : Nat) :
    (m.destroyObj oid).buf = m.buf := rfl
@[simp] theorem destroyObj_countUniform (m : RayMarcher) (oid : Nat) :
    (m.destroyObj oid).countUniform = m.countUniform := rfl
@[simp] theorem destroyObj_active (m : RayMarcher) (oid : Nat) :
    (m.destroyObj oid).active = m.active := rfl
@[simp] theorem destroyObj_activeIdx (m : RayMarcher) (oid : Nat) :
    (m.destroyObj oid).activeIdxUniform = m.activeIdxUniform := rfl

theorem destroyObj_store_self (m : RayMarcher) (oid : Nat) :
    (m.destroyObj oid).store oid = destroyedState (m.store oid) := by
  simp [destroyObj]

theorem destroyObj_store_ne (m : RayMarcher) (oid o : Nat) (h : o ≠ oid) :
    (m.destroyObj oid).store o = m.store o := by
  simp [destroyObj, h]

@[simp] theorem copySlot_objs (m : RayMarcher) (src dst : Nat) :
    (m.copySlot src dst).objs = m.objs := by
  unfold copySlot; split <;> rfl
@[simp] theorem copySlot_store (m : RayMarcher) (src dst : Nat) :
    (m.copySlot src dst).store = m.store := by
  unfold copySlot; split <;> rfl
@[simp] theorem copySlot_countUniform (m : RayMarcher) (src dst : Nat) :
    (m.copySlot src dst).countUniform = m.countUniform := by
  unfold copySlot; split <;> rfl
@[simp] theorem copySlot_active (m : RayMarcher) (src dst : Nat) :
    (m.copySlot src dst).active = m.active := by
  unfold copySlot; split <;> rfl
@[simp] theorem copySlot_activeIdx (m : RayMarcher) (src dst : Nat) :
    (m.copySlot src dst).activeIdxUniform = m.activeIdxUniform := by
  unfold copySlot; split <;> rfl
@[simp] theorem copySlot_bufBytes (m : RayMarcher) (src dst : Nat) :
    (m.copySlot src dst).bufBytes = m.bufBytes := by
  unfold copySlot; split <;> rfl

theorem copySlot_buf_of_le (m : RayMarcher) (src dst : Nat)
    (hs : (src + 1) * RayObject.GPU_DATA_SIZE_WPAD_BYTES ≤ m.bufBytes)
    (hd : (dst + 1) * RayObject.GPU_DATA_SIZE_WPAD_BYTES ≤ m.bufBytes) :
    (m.copySlot src dst).buf = fun k => if k = dst then m.buf src else m.buf k := by
  unfold copySlot
  rw [if_pos ⟨hs, hd⟩]

theorem copySlot_writeError_of_le (m : RayMarcher) (src dst : Nat)
    (hs : (src + 1) * RayObject.GPU_DATA_SIZE_WPAD_BYTES ≤ m.bufBytes)
    (hd : (dst + 1) * RayObject.GPU_DATA_SIZE_WPAD_BYTES ≤ m.bufBytes) :
    (m.copySlot src dst).writeError = m.writeError := by
  unfold copySlot
  rw [if_pos ⟨hs, hd⟩]

end RayMarcher

namespace RayMarcher

theorem addObject_objs (m : RayMarcher) (oid : Nat) :
    (m.addObject oid).objs = m.objs ++ [oid] := by
  unfold addObject
  dsimp only
  split <;> simp

theorem addObject_countUniform (m : RayMarcher) (oid : Nat) :
    (m.addObject oid).countUniform = m.objs.length + 1 := by
  unfold addObject
  dsimp only
  split <;> simp

theorem addObject_active (m : RayMarcher) (oid : Nat) :
    (m.addObject oid).active = m.active := by
  unfold addObject
  dsimp only
  split <;> simp

theorem addObject_activeIdx (m : RayMarcher) (oid : Nat) :
    (m.addObject oid).activeIdxUniform = m.activeIdxUniform := by
  unfold addObject
  dsimp only
  split <;> simp

theorem addObject_store_index (m : RayMarcher) (oid o : Nat) :
    ((m.addObject oid).store o).index =
      if o = oid then some m.objs.length else (m.store o).index := by
  unfold addObject
  dsimp only
  split <;> (rw [syncObj_store]; by_cases hoo : o = oid <;> simp [hoo])

theorem addObject_store_ne (m : RayMarcher) (oid o : Nat) (h : o ≠ oid) :
    (m.addObject oid).store o = m.store o := by
  unfold addObject
  dsimp only
  split <;> (rw [syncObj_store]; simp only []; rw [if_neg h])

theorem removeObject_of_index_none (m : RayMarcher) (oid : Nat)
    (h : (m.store oid).index = none) :
    m.removeObject oid = m := by
  unfold removeObject
  rw [h]

theorem removeObject_of_index_ge (m : RayMarcher) (oid idx : Nat)
    (h : (m.store oid).index = some idx) (hge : m.objs.length ≤ idx) :
    m.removeObject oid = m := by
  unfold removeObject
  rw [h]
  dsimp only
  rw [if_neg (by omega)]

theorem removeObject_last_eq (m : RayMarcher) (oid idx : Nat)
    (h : (m.store oid).index = some idx)
    (hlt : idx < m.objs.length) (hlast : idx = m.objs.length - 1) :
    m.removeObject oid =
      { m with
        objs := m.objs.dropLast
        store := fun o => if o = oid then destroyedState (m.store o) else m.store o
        countUniform := m.objs.dropLast.length
        active := if m.active = some oid then none else m.active
        activeIdxUniform := if m.active = some oid then -1 else m.activeIdxUniform } := by
  unfold removeObject
  rw [h]
  dsimp only
  rw [if_pos hlt, if_pos hlast]
  by_cases hA : m.active = some oid
  · simp [hA, selectObject, destroyObj]
  · simp [hA, destroyObj]

end RayMarcher

namespace RayMarcher

end RayMarcher

namespace RayMarcher

theorem removeObject_swap_eq (m : RayMarcher) (oid idx : Nat)
    (h : (m.store oid).index = some idx)
    (hlt : idx < m.objs.length)
    (hne : idx ≠ m.objs.length - 1)
    (hlast : m.objs.getD (m.objs.length - 1) 0 ≠ oid) :
    m.removeObject oid =
      { m.copySlot (m.objs.length - 1) idx with
        objs := (m.objs.set idx (m.objs.getD (m.objs.length - 1) 0)).dropLast
        store := fun o =>
          if o = oid then destroyedState (m.store o)
          else if o = m.objs.getD (m.objs.length - 1) 0 then
            { m.store o with index := some idx }
          else m.store o
        countUniform := (m.objs.set idx (m.objs.getD (m.objs.length - 1) 0)).dropLast.length
        active := if m.active = some oid then none else m.active
        activeIdxUniform :=
          if m.active = some (m.objs.getD (m.objs.length - 1) 0) then (idx : Int)
          else if m.active = some oid then -1
          else m.activeIdxUniform } := by
  unfold removeObject
  rw [h]
  dsimp only
  rw [if_pos hlt, if_neg hne]
  set lastId := m.objs.getD (m.objs.length - 1) 0 with hlastId
  have hstore : ∀ (f : Nat → RayObjectState),
      (f = fun o => if o = lastId then { m.store o with index := some idx } else m.store o) →
      (fun o => if o = oid then destroyedState (f o) else f o)
        = fun o =>
            if o = oid then destroyedState (m.store o)
            else if o = lastId then { m.store o with index := some idx }
            else m.store o := by
    intro f hf
    funext o
    by_cases ho : o = oid
    · simp only [hf, if_pos ho]
      split <;> rfl
    · simp only [hf, if_neg ho]
  by_cases hA1 : m.active = some lastId
  · have hAo : ¬ m.active = some oid := by
      rw [hA1]; simp [hlast]
    simp only [copySlot_store, copySlot_active, copySlot_activeIdx, hA1,
      selectObject, destroyObj, if_true, ite_true, if_pos]
    simp only [Option.some.injEq, hlast, if_false, ite_false, copySlot_objs]
    rw [hstore _ rfl]
  · by_cases hAo : m.active = some oid
    · simp only [copySlot_store, copySlot_active, copySlot_activeIdx, hA1,
        selectObject, destroyObj, if_false, ite_false, copySlot_objs]
      simp only [hAo, if_true, ite_true]
      rw [hstore _ rfl]
    · simp only [copySlot_store, copySlot_active, copySlot_activeIdx, hA1,
        selectObject, destroyObj, if_false, ite_false, copySlot_objs]
      simp only [hAo, if_false, ite_false]
      rw [hstore _ rfl]

end RayMarcher

/-! ## The registry invariant -/

/-- The compaction/selection invariant of the object registry: the count
uniform mirrors the CPU list length, `_index` is exactly the position in the
CPU list (in both directions), and the retained active-object uniform is the
active object's slot (or −1). -/
structure RegistryInv (m : RayMarcher) : Prop where
  count_eq : m.countUniform = m.objs.length
  idx_at : ∀ i oid, m.objs[i]? = some oid → ((m.store oid).index) = some i
  at_idx : ∀ oid i, ((m.store oid).index) = some i → m.objs[i]? = some oid
  active_some : ∀ oid, m.active = some oid →
    ∃ i, ((m.store oid).index) = some i ∧ m.activeIdxUniform = (i : Int)
  active_none : m.active = none → m.activeIdxUniform = -1

theorem mem_of_getElem?_list {l : List Nat} {i a : Nat} (h : l[i]? = some a) : a ∈ l := by
  obtain ⟨hlt, rfl⟩ := List.getElem?_eq_some.mp h
  exact List.getElem_mem hlt

theorem regInv_init : RegistryInv RayMarcher.init := by
  constructor <;> intros <;> simp_all [RayMarcher.init, RayObjectState.blank]

theorem regInv_setAttrs (m : RayMarcher) (oid : Nat) (a : GpuRecord)
    (hm : RegistryInv m) : RegistryInv (m.setAttrs oid a) := by
  constructor
  · simpa using hm.count_eq
  · intro i o hio
    rw [RayMarcher.setAttrs_store_index]
    exact hm.idx_at i o (by simpa using hio)
  · intro o i hi
    rw [RayMarcher.setAttrs_store_index] at hi
    simpa using hm.at_idx o i hi
  · intro o ho
    obtain ⟨i, hi, hu⟩ := hm.active_some o (by simpa using ho)
    exact ⟨i, by rw [RayMarcher.setAttrs_store_index]; exact hi, by simpa using hu⟩
  · intro ho
    simpa using hm.active_none (by simpa using ho)

theorem regInv_syncObj (m : RayMarcher) (oid : Nat)
    (hm : RegistryInv m) : RegistryInv (m.syncObj oid) := by
  constructor <;> simp only [RayMarcher.syncObj_objs, RayMarcher.syncObj_store,
    RayMarcher.syncObj_countUniform, RayMarcher.syncObj_active, RayMarcher.syncObj_activeIdx]
  · exact hm.count_eq
  · exact hm.idx_at
  · exact hm.at_idx
  · exact hm.active_some
  · exact hm.active_none

theorem regInv_selectObject (m : RayMarcher) (o : Option Nat)
    (hm : RegistryInv m) (hok : o = none ∨ ∃ oid ∈ m.objs, o = some oid) :
    RegistryInv (m.selectObject o) := by
  rcases hok with rfl | ⟨oid, hmem, rfl⟩
  · constructor
    · simpa using hm.count_eq
    · intro i o hio
      exact hm.idx_at i o (by simpa using hio)
    · intro o i hi
      simpa using hm.at_idx o i (by simpa using hi)
    · intro o ho
      simp at ho
    · intro _
      simp
  · obtain ⟨i, hlt, hget⟩ := List.getElem_of_mem hmem
    have hidx : (m.store oid).index = some i :=
      hm.idx_at i oid (by rw [List.getElem?_eq_getElem hlt, hget])
    constructor
    · simpa using hm.count_eq
    · intro j o hjo
      exact hm.idx_at j o (by simpa using hjo)
    · intro o j hj
      simpa using hm.at_idx o j (by simpa using hj)
    · intro o ho
      simp only [RayMarcher.selectObject_active, Option.some.injEq] at ho
      subst ho
      exact ⟨i, by simpa using hidx, RayMarcher.selectObject_activeIdx_some m oid i hidx⟩
    · intro ho
      simp at ho

theorem regInv_addObject (m : RayMarcher) (oid : Nat)
    (hfresh : oid ∉ m.objs) (hm : RegistryInv m) :
    RegistryInv (m.addObject oid) := by
  constructor
  · rw [RayMarcher.addObject_countUniform, RayMarcher.addObject_objs]
    simp
  · intro i o hio
    rw [RayMarcher.addObject_objs, List.getElem?_append] at hio
    rw [RayMarcher.addObject_store_index]
    by_cases hi : i < m.objs.length
    · rw [if_pos hi] at hio
      have hne : o ≠ oid := fun he => hfresh (he ▸ mem_of_getElem?_list hio)
      rw [if_neg hne]
      exact hm.idx_at i o hio
    · rw [if_neg hi] at hio
      have hle : m.objs.length ≤ i := Nat.le_of_not_lt hi
      have h0 : i - m.objs.length = 0 := by
        rcases Nat.lt_or_ge (i - m.objs.length) 1 with h1 | h1
        · omega
        · rw [List.getElem?_eq_none (by simpa using h1)] at hio
          exact absurd hio (by simp)
      rw [h0] at hio
      simp only [List.getElem?_cons_zero, Option.some.injEq] at hio
      subst hio
      rw [if_pos rfl]
      congr 1
      omega
  · intro o i hi
    rw [RayMarcher.addObject_store_index] at hi
    rw [RayMarcher.addObject_objs]
    by_cases ho : o = oid
    · rw [if_pos ho] at hi
      obtain rfl : m.objs.length = i := by simpa using hi
      subst ho
      rw [List.getElem?_append_right (Nat.le_refl _)]
      simp
    · rw [if_neg ho] at hi
      have := hm.at_idx o i hi
      rw [List.getElem?_append, if_pos (List.getElem?_eq_some.mp this).1]
      exact this
  · intro o ho
    rw [RayMarcher.addObject_active] at ho
    obtain ⟨i, hi, hu⟩ := hm.active_some o ho
    have hmem : o ∈ m.objs := mem_of_getElem?_list (hm.at_idx o i hi)
    have hne : o ≠ oid := fun he => hfresh (he ▸ hmem)
    refine ⟨i, ?_, ?_⟩
    · rw [RayMarcher.addObject_store_index, if_neg hne]
      exact hi
    · rw [RayMarcher.addObject_activeIdx]
      exact hu
  · intro ho
    rw [RayMarcher.addObject_active] at ho
    rw [RayMarcher.addObject_activeIdx]
    exact hm.active_none ho


theorem regInv_removeObject_last (m : RayMarcher) (oid idx : Nat) (hm : RegistryInv m)
    (hidx : (m.store oid).index = some idx)
    (hlt : idx < m.objs.length) (hne : idx = m.objs.length - 1) :
    RegistryInv (m.removeObject oid) := by
  rw [RayMarcher.removeObject_last_eq m oid idx hidx hlt hne]
  refine ⟨?_, ?_, ?_, ?_, ?_⟩ <;> dsimp only
  · intro i o hio
    simp only [List.dropLast_eq_take, List.getElem?_take] at hio
    by_cases hi : i < m.objs.length - 1
    · rw [if_pos hi] at hio
      have ho : o ≠ oid := by
        intro he
        subst he
        have h2 := hm.idx_at i o hio
        rw [hidx] at h2
        have h3 := (Option.some.injEq _ _).mp h2
        omega
      rw [if_neg ho]
      exact hm.idx_at i o hio
    · rw [if_neg hi] at hio
      exact absurd hio (by simp)
  · intro o i hi
    by_cases ho : o = oid
    · rw [if_pos ho] at hi
      simp [RayMarcher.destroyedState] at hi
    · rw [if_neg ho] at hi
      have hoi := hm.at_idx o i hi
      have hilt : i < m.objs.length := (List.getElem?_eq_some.mp hoi).1
      have hine : i ≠ m.objs.length - 1 := by
        intro he
        apply ho
        have hoidx := hm.at_idx oid idx hidx
        rw [hne] at hoidx
        rw [he] at hoi
        rw [hoi] at hoidx
        exact (Option.some.injEq _ _).mp hoidx
      simp only [List.dropLast_eq_take, List.getElem?_take]
      rw [if_pos (by omega)]
      exact hoi
  · intro o ho
    by_cases hA : m.active = some oid
    · rw [if_pos hA] at ho
      exact absurd ho (by simp)
    · rw [if_neg hA] at ho
      have hone : o ≠ oid := fun he => hA (he ▸ ho)
      obtain ⟨i, hi, hu⟩ := hm.active_some o ho
      exact ⟨i, by rw [if_neg hone]; exact hi, by rw [if_neg hA]; exact hu⟩
  · intro ho
    by_cases hA : m.active = some oid
    · rw [if_pos hA]
    · rw [if_neg hA] at ho
      rw [if_neg hA]
      exact hm.active_none ho

theorem regInv_removeObject_swap (m : RayMarcher) (oid idx : Nat) (hm : RegistryInv m)
    (hidx : (m.store oid).index = some idx)
    (hlt : idx < m.objs.length) (hne : idx ≠ m.objs.length - 1) :
    RegistryInv (m.removeObject oid) := by
  have h1 : m.objs.length - 1 < m.objs.length := by omega
  have hlastget : m.objs[m.objs.length - 1]? =
      some (m.objs.getD (m.objs.length - 1) 0) := by
    rw [List.getD_eq_getElem?_getD, List.getElem?_eq_getElem h1]
    rfl
  have hlastidx : (m.store (m.objs.getD (m.objs.length - 1) 0)).index =
      some (m.objs.length - 1) := hm.idx_at _ _ hlastget
  have hlast : m.objs.getD (m.objs.length - 1) 0 ≠ oid := by
    intro he
    rw [he, hidx] at hlastidx
    exact hne ((Option.some.injEq _ _).mp hlastidx)
  have hidxlt : idx < m.objs.length - 1 := by omega
  rw [RayMarcher.removeObject_swap_eq m oid idx hidx hlt hne hlast]
  set lastId := m.objs.getD (m.objs.length - 1) 0 with hlastdef
  refine ⟨?_, ?_, ?_, ?_, ?_⟩ <;> dsimp only
  · intro i o hio
    simp only [List.dropLast_eq_take, List.length_set, List.getElem?_take,
      List.getElem?_set] at hio
    by_cases hi : i < m.objs.length - 1
    · rw [if_pos hi] at hio
      by_cases hii : idx = i
      · rw [if_pos hii, if_pos hlt] at hio
        have ho : o = lastId := ((Option.some.injEq _ _).mp hio).symm
        rw [ho]
        simp [hlast, hii]
      · rw [if_neg hii] at hio
        have ho : o ≠ oid := by
          intro he
          have h2 := hm.idx_at i o hio
          rw [he, hidx] at h2
          exact hii ((Option.some.injEq _ _).mp h2)
        have hol : o ≠ lastId := by
          intro he
          have h2 := hm.idx_at i o hio
          rw [he, hlastidx] at h2
          have h3 := (Option.some.injEq _ _).mp h2
          omega
        rw [if_neg ho, if_neg hol]
        exact hm.idx_at i o hio
    · rw [if_neg hi] at hio
      exact absurd hio (by simp)
  · intro o i hi
    by_cases ho : o = oid
    · rw [if_pos ho] at hi
      simp [RayMarcher.destroyedState] at hi
    · rw [if_neg ho] at hi
      by_cases hol : o = lastId
      · rw [if_pos hol] at hi
        dsimp only at hi
        have hieq : i = idx := ((Option.some.injEq _ _).mp hi).symm
        subst hieq
        simp only [List.dropLast_eq_take, List.length_set, List.getElem?_take,
          List.getElem?_set]
        rw [if_pos hidxlt]
        simp [hlt, hol]
      · rw [if_neg hol] at hi
        have hoi := hm.at_idx o i hi
        have hilt : i < m.objs.length := (List.getElem?_eq_some.mp hoi).1
        have hine : i ≠ idx := by
          intro he
          apply ho
          have hoidx := hm.at_idx oid idx hidx
          rw [he] at hoi
          rw [hoi] at hoidx
          exact (Option.some.injEq _ _).mp hoidx
        have hinl : i ≠ m.objs.length - 1 := by
          intro he
          apply hol
          rw [he] at hoi
          rw [hoi] at hlastget
          exact (Option.some.injEq _ _).mp hlastget
        simp only [List.dropLast_eq_take, List.length_set, List.getElem?_take,
          List.getElem?_set]
        rw [if_pos (by omega), if_neg (fun he => hine he.symm)]
        exact hoi
  · intro o ho
    by_cases hAo : m.active = some oid
    · rw [if_pos hAo] at ho
      exact absurd ho (by simp)
    · rw [if_neg hAo] at ho
      have hone : o ≠ oid := fun he => hAo (he ▸ ho)
      by_cases hAl : m.active = some lastId
      · have hol : o = lastId := by
          rw [ho] at hAl
          exact (Option.some.injEq _ _).mp hAl
        refine ⟨idx, ?_, ?_⟩
        · rw [hol]
          simp [hlast]
        · rw [if_pos hAl]
      · have hol : o ≠ lastId := fun he => hAl (he ▸ ho)
        obtain ⟨i, hi, hu⟩ := hm.active_some o ho
        refine ⟨i, ?_, ?_⟩
        · rw [if_neg hone, if_neg hol]
          exact hi
        · rw [if_neg hAl, if_neg hAo]
          exact hu
  · intro ho
    by_cases hAo : m.active = some oid
    · have hAl : ¬ m.active = some lastId := by
        rw [hAo]
        simp only [Option.some.injEq]
        exact fun he => hlast he.symm
      rw [if_neg hAl, if_pos hAo]
    · rw [if_neg hAo] at ho
      have hAl : ¬ m.active = some lastId := by
        rw [ho]
        simp
      rw [if_neg hAl, if_neg hAo]
      exact hm.active_none ho

theorem regInv_removeObject (m : RayMarcher) (oid : Nat) (hm : RegistryInv m) :
    RegistryInv (m.removeObject oid) := by
  cases hidx : (m.store oid).index with
  | none =>
    rw [RayMarcher.removeObject_of_index_none m oid hidx]
    exact hm
  | some idx =>
    by_cases hlt : idx < m.objs.length
    · by_cases hne : idx = m.objs.length - 1
      · exact regInv_removeObject_last m oid idx hm hidx hlt hne
      · exact regInv_removeObject_swap m oid idx hm hidx hlt hne
    · rw [RayMarcher.removeObject_of_index_ge m oid idx hidx (Nat.le_of_not_lt hlt)]
      exact hm

theorem regInv_createAndAdd (m : RayMarcher) (oid : Nat) (a : GpuRecord)
    (hfresh : oid ∉ m.objs) (hm : RegistryInv m) :
    RegistryInv (m.createAndAdd oid a) :=
  regInv_addObject _ _ (by simpa using hfresh) (regInv_setAttrs m oid a hm)

theorem regInv_applyOp (m : RayMarcher) (op : Op)
    (hm : RegistryInv m) (hok : okOp m op = true) : RegistryInv (applyOp m op) := by
  cases op with
  | add oid a =>
    refine regInv_createAndAdd m oid a ?_ hm
    simpa [okOp] using hok
  | remove oid => exact regInv_removeObject m oid hm
  | select o =>
    refine regInv_selectObject m o hm ?_
    cases o with
    | none => exact Or.inl rfl
    | some oid =>
      refine Or.inr ⟨oid, ?_, rfl⟩
      simpa [okOp] using hok

theorem regInv_applyOps (m : RayMarcher) (l : List Op)
    (hm : RegistryInv m) (hok : okSeq m l = true) : RegistryInv (applyOps m l) := by
  induction l generalizing m with
  | nil => exact hm
  | cons op rest ih =>
    rw [okSeq, Bool.and_eq_true] at hok
    exact ih (applyOp m op) (regInv_applyOp m op hm hok.1) hok.2

theorem okSeq_take (m : RayMarcher) (l : List Op) (k : Nat)
    (hok : okSeq m l = true) : okSeq m (l.take k) = true := by
  induction l generalizing m k with
  | nil => simp [okSeq]
  | cons op rest ih =>
    cases k with
    | zero => simp [okSeq]
    | succ k =>
      rw [okSeq, Bool.and_eq_true] at hok
      rw [List.take_succ_cons, okSeq, Bool.and_eq_true]
      exact ⟨hok.1, ih (applyOp m op) k hok.2⟩

/-! ## Helper facts shared by the claim theorems -/

theorem regLastId_ne (m : RayMarcher) (oid idx : Nat) (hm : RegistryInv m)
    (hidx : (m.store oid).index = some idx) (hlt : idx < m.objs.length)
    (hne : idx ≠ m.objs.length - 1) :
    m.objs.getD (m.objs.length - 1) 0 ≠ oid := by
  have h1 : m.objs.length - 1 < m.objs.length := by omega
  have hlastget : m.objs[m.objs.length - 1]? =
      some (m.objs.getD (m.objs.length - 1) 0) := by
    rw [List.getD_eq_getElem?_getD, List.getElem?_eq_getElem h1]
    rfl
  have hlastidx := hm.idx_at _ _ hlastget
  intro he
  rw [he, hidx] at hlastidx
  exact hne ((Option.some.injEq _ _).mp hlastidx)

theorem regLastId_oldIndex (m : RayMarcher) (hm : RegistryInv m)
    (hlen : 0 < m.objs.length) :
    (m.store (m.objs.getD (m.objs.length - 1) 0)).index =
      some (m.objs.length - 1) := by
  have h1 : m.objs.length - 1 < m.objs.length := by omega
  refine hm.idx_at _ _ ?_
  rw [List.getD_eq_getElem?_getD, List.getElem?_eq_getElem h1]
  rfl

/-- Shared helper: removing the currently active (live) object clears the
selection and writes −1 into the retained active-index uniform. -/
theorem removeActive_clears (m : RayMarcher) (oid : Nat)
    (hm : RegistryInv m) (hact : m.active = some oid) :
    (m.removeObject oid).active = none ∧
    (m.removeObject oid).activeIdxUniform = -1 := by
  obtain ⟨idx, hidx, _⟩ := hm.active_some oid hact
  have hgets := hm.at_idx oid idx hidx
  have hlt : idx < m.objs.length := (List.getElem?_eq_some.mp hgets).1
  by_cases hne : idx = m.objs.length - 1
  · rw [RayMarcher.removeObject_last_eq m oid idx hidx hlt hne]
    dsimp only
    rw [if_pos hact, if_pos hact]
    exact ⟨rfl, rfl⟩
  · have hlast := regLastId_ne m oid idx hm hidx hlt hne
    rw [RayMarcher.removeObject_swap_eq m oid idx hidx hlt hne hlast]
    dsimp only
    have hAl : ¬ m.active = some (m.objs.getD (m.objs.length - 1) 0) := by
      rw [hact]
      simp only [Option.some.injEq]
      exact fun he => hlast he.symm
    rw [if_pos hact, if_neg hAl, if_pos hact]
    exact ⟨rfl, rfl⟩

/-! ## Concrete scenario data -/

def recA : GpuRecord := { GpuRecord.zero with position := ⟨1, 0, 0⟩, oid := 1 }
def recB : GpuRecord := { GpuRecord.zero with position := ⟨2, 0, 0⟩, oid := 2 }
def recC : GpuRecord := { GpuRecord.zero with position := ⟨3, 0, 0⟩, oid := 3 }

/-- Add A (id 1), B (id 2), C (id 3) to a fresh marcher. -/
def mABC : RayMarcher :=
  applyOps RayMarcher.init [.add 1 recA, .add 2 recB, .add 3 recC]

/-! ## Claim theorems -/

/-- C5: a `readCollisionBuffer` call made while a previous readback is still
pending (pending flag set) returns immediately: it issues no buffer copy, no
submit and no map, the whole marcher state — in particular the cached
`lastCollision` — is left unchanged, and the request is dropped rather than
queued. -/
theorem c5_pending_readback_dropped (m : RayMarcher) (raw : Int × Int)
    (h : m.collisionPending = true) :
    m.readCollisionBuffer raw = (m, []) ∧
    (m.readCollisionBuffer raw).1.lastCollision = m.lastCollision ∧
    GpuAction.mapBuffer ∉ (m.readCollisionBuffer raw).2 ∧
    GpuAction.copyBufferToBuffer ∉ (m.readCollisionBuffer raw).2 ∧
    GpuAction.submit ∉ (m.readCollisionBuffer raw).2 := by
  unfold RayMarcher.readCollisionBuffer
  simp [h]

/-- Witness for C5: a concrete marcher with the pending flag set. -/
theorem c5_witness :
    ({ RayMarcher.init with collisionPending := true } : RayMarcher).collisionPending = true ∧
    ({ RayMarcher.init with collisionPending := true } : RayMarcher).readCollisionBuffer (0, 0)
      = ({ RayMarcher.init with collisionPending := true }, []) :=
  ⟨rfl, (c5_pending_readback_dropped _ (0, 0) rfl).1⟩

/-- C6: removing the currently active (selected, live) object clears the
selection: afterwards the marcher's active object is `none` and the retained
active-object-index uniform is −1 (the Idle state). -/
theorem c6_remove_active_clears_selection (m : RayMarcher) (oid : Nat)
    (hm : RegistryInv m) (hact : m.active = some oid) :
    (m.removeObject oid).active = none ∧
    (m.removeObject oid).activeIdxUniform = -1 :=
  removeActive_clears m oid hm hact

/-- Witness for C6: add A and B, select A, remove A. -/
theorem c6_witness :
    (applyOps RayMarcher.init [.add 1 recA, .add 2 recB, .select (some 1)]).active = some 1 ∧
    ((applyOps RayMarcher.init [.add 1 recA, .add 2 recB, .select (some 1)]).removeObject 1).active = none ∧
    ((applyOps RayMarcher.init [.add 1 recA, .add 2 recB, .select (some 1)]).removeObject 1).activeIdxUniform = -1 := by
  refine ⟨by decide, ?_, ?_⟩
  · exact (c6_remove_active_clears_selection _ 1
      (regInv_applyOps _ _ regInv_init (by decide)) (by decide)).1
  · exact (c6_remove_active_clears_selection _ 1
      (regInv_applyOps _ _ regInv_init (by decide)) (by decide)).2

/-- C7: for an object whose GPU linkage has been cleared (it was removed, or
it was never added: `_index` undefined), both `sync` and `removeObject` are
silent no-ops: the entire marcher state — object list, count uniform, every
other object's slot, buffer contents — is unchanged and no error is
raised. -/
theorem c7_stale_target_noop (m : RayMarcher) (oid : Nat)
    (h : (m.store oid).index = none) :
    m.syncObj oid = m ∧ m.removeObject oid = m := by
  constructor
  · unfold RayMarcher.syncObj
    dsimp only
    split
    · rename_i g i hL hI
      rw [h] at hI
      cases hI
    · rfl
  · exact RayMarcher.removeObject_of_index_none m oid h

/-- Witness for C7: object 1 is added then removed (slot cleared), and
object 99 was never added; both are no-op targets on the resulting state. -/
theorem c7_witness :
    ((mABC.removeObject 1).store 1).index = none ∧
    ((mABC.removeObject 1).store 99).index = none ∧
    (mABC.removeObject 1).syncObj 1 = mABC.removeObject 1 ∧
    (mABC.removeObject 1).removeObject 1 = mABC.removeObject 1 ∧
    (mABC.removeObject 1).syncObj 99 = mABC.removeObject 1 := by
  refine ⟨by decide, by decide, ?_, ?_, ?_⟩
  · exact (c7_stale_target_noop _ 1 (by decide)).1
  · exact (c7_stale_target_noop _ 1 (by decide)).2
  · exact (c7_stale_target_noop _ 99 (by decide)).1

/-- C9: `Engine.removeObject` forwards to the ray marcher but never touches
the engine's own `_activeObject` pointer: after removing the engine's
currently selected object, `selectedObject` still returns the removed object
even though the underlying marcher's active object has been cleared to
`none`. -/
theorem c9_engine_selection_stale_after_remove (e : Engine) (oid : Nat)
    (hm : RegistryInv e.marcher) (hsel : e.engActive = some oid)
    (hact : e.marcher.active = some oid) :
    (e.removeObject oid).selectedObject = some oid ∧
    (e.removeObject oid).marcher.active = none := by
  constructor
  · simpa [Engine.removeObject, Engine.selectedObject] using hsel
  · exact (removeActive_clears e.marcher oid hm hact).1

/-- Witness for C9: an engine with objects 1 and 2, 1 selected, then
`removeObject 1`. -/
theorem c9_witness :
    (((Engine.init.addObject 1 recA).addObject 2 recB).selectObject (some 1)).engActive = some 1 ∧
    ((((Engine.init.addObject 1 recA).addObject 2 recB).selectObject (some 1)).removeObject 1).selectedObject = some 1 ∧
    ((((Engine.init.addObject 1 recA).addObject 2 recB).selectObject (some 1)).removeObject 1).marcher.active = none := by
  refine ⟨by decide, ?_, ?_⟩
  · exact (c9_engine_selection_stale_after_remove _ 1
      (regInv_applyOps RayMarcher.init [.add 1 recA, .add 2 recB, .select (some 1)]
        regInv_init (by decide)) (by decide) (by decide)).1
  · exact (c9_engine_selection_stale_after_remove _ 1
      (regInv_applyOps RayMarcher.init [.add 1 recA, .add 2 recB, .select (some 1)]
        regInv_init (by decide)) (by decide) (by decide)).2

/-- 128 adds with ids 1..128: exactly fills the initial
`80 * 128 = 10240`-byte object buffer. -/
def addSeq (n : Nat) : List Op :=
  (List.range n).map (fun k =>
    .add (k + 1) { GpuRecord.zero with oid := k + 1, position := ⟨(k : Int), 0, 0⟩ })

def mFull : RayMarcher := applyOps RayMarcher.init (addSeq 128)

def overflowRecord : GpuRecord :=
  { GpuRecord.zero with oid := 200, position := ⟨99, 0, 0⟩ }

def mOver : RayMarcher := mFull.createAndAdd 200 overflowRecord

set_option maxRecDepth 8000 in
/-- C1 (refuting evaluation): the growth guard of `addObject` compares the
object count against the buffer size in bytes
(`this.objects.length >= this.objectBuffer.size`), so when the buffer's
record capacity is actually exhausted (128 records in 10240 bytes, so the
129th record no longer fits) no doubled buffer is allocated: `bufBytes`
stays 10240, the generation is unchanged, and the 129th record's upload is
an out-of-bounds write (offset 10240 + 80 > 10240) that WebGPU validation
drops, leaving slot 128 zero-filled while the CPU object holds the real
attributes. -/
theorem c1_growth_guard_unit_mismatch :
    mFull.objs.length = 128 ∧
    mFull.bufBytes = 10240 ∧
    mFull.writeError = false ∧
    (mFull.objs.length + 1) * RayObject.GPU_DATA_SIZE_WPAD_BYTES > mFull.bufBytes ∧
    mOver.objs.length = 129 ∧
    mOver.bufBytes = 10240 ∧
    mOver.bufGen = 0 ∧
    mOver.writeError = true ∧
    mOver.buf 128 = GpuRecord.zero ∧
    (mOver.store 200).attrs = overflowRecord ∧
    mOver.buf 127 = mFull.buf 127 := by
  decide

/-- C2: removing a live object that is not last (its slot `idx` satisfies
`idx + 1 < length`, and the buffer holds all records) copies the last
object's attribute record over the removed slot, reassigns exactly one
other object's slot (the former last object, whose slot becomes `idx`;
every object other than the removed one and the former last keeps its
slot), pops the last CPU entry and decrements the count uniform; and the
concrete scenario holds: after adding A (slot 0), B (slot 1), C (slot 2)
and removing A the list is [C, B] with C at slot 0, B unchanged at slot 1
and count 2, and a further removal of B leaves [C] with count 1. -/
theorem c2_swap_compaction_removal :
    (∀ (m : RayMarcher) (oid idx : Nat),
      RegistryInv m →
      (m.store oid).index = some idx →
      idx + 1 < m.objs.length →
      m.objs.length * RayObject.GPU_DATA_SIZE_WPAD_BYTES ≤ m.bufBytes →
        ((m.removeObject oid).objs
            = (m.objs.set idx (m.objs.getD (m.objs.length - 1) 0)).dropLast ∧
          (m.removeObject oid).buf idx = m.buf (m.objs.length - 1) ∧
          m.objs.getD (m.objs.length - 1) 0 ≠ oid ∧
          (m.store (m.objs.getD (m.objs.length - 1) 0)).index
            = some (m.objs.length - 1) ∧
          ((m.removeObject oid).store (m.objs.getD (m.objs.length - 1) 0)).index
            = some idx ∧
          (∀ o, o ≠ oid → o ≠ m.objs.getD (m.objs.length - 1) 0 →
            ((m.removeObject oid).store o).index = (m.store o).index) ∧
          (m.removeObject oid).countUniform = m.objs.length - 1)) ∧
    ((mABC.removeObject 1).objs = [3, 2] ∧
      ((mABC.removeObject 1).store 3).index = some 0 ∧
      ((mABC.removeObject 1).store 2).index = some 1 ∧
      (mABC.removeObject 1).buf 0 = recC ∧
      (mABC.removeObject 1).buf 1 = recB ∧
      (mABC.removeObject 1).countUniform = 2 ∧
      ((mABC.removeObject 1).removeObject 2).objs = [3] ∧
      ((mABC.removeObject 1).removeObject 2).countUniform = 1) := by
  constructor
  · intro m oid idx hm hidx hlen hcap
    have hlt : idx < m.objs.length := by omega
    have hne : idx ≠ m.objs.length - 1 := by omega
    have hlast := regLastId_ne m oid idx hm hidx hlt hne
    have holdidx := regLastId_oldIndex m hm (by omega)
    have hs : (m.objs.length - 1 + 1) * RayObject.GPU_DATA_SIZE_WPAD_BYTES
        ≤ m.bufBytes := by
      have : m.objs.length - 1 + 1 = m.objs.length := by omega
      rw [this]
      exact hcap
    have hd : (idx + 1) * RayObject.GPU_DATA_SIZE_WPAD_BYTES ≤ m.bufBytes := by
      calc (idx + 1) * RayObject.GPU_DATA_SIZE_WPAD_BYTES
          ≤ m.objs.length * RayObject.GPU_DATA_SIZE_WPAD_BYTES :=
            Nat.mul_le_mul_right _ (by omega)
        _ ≤ m.bufBytes := hcap
    rw [RayMarcher.removeObject_swap_eq m oid idx hidx hlt hne hlast]
    dsimp only
    refine ⟨rfl, ?_, hlast, holdidx, ?_, ?_, ?_⟩
    · rw [RayMarcher.copySlot_buf_of_le m _ _ hs hd]
      simp
    · rw [if_neg hlast]
      simp
    · intro o ho hol
      rw [if_neg ho, if_neg hol]
    · simp
  · refine ⟨by decide, by decide, by decide, by decide, by decide, by decide,
      by decide, by decide⟩

/-- Witness for C2: the general part applied to the concrete A/B/C state,
removing A (slot 0, not last). -/
theorem c2_witness :
    (mABC.store 1).index = some 0 ∧
    0 + 1 < mABC.objs.length ∧
    mABC.objs.length * RayObject.GPU_DATA_SIZE_WPAD_BYTES ≤ mABC.bufBytes ∧
    (mABC.removeObject 1).objs
      = (mABC.objs.set 0 (mABC.objs.getD (mABC.objs.length - 1) 0)).dropLast ∧
    (mABC.removeObject 1).buf 0 = mABC.buf (mABC.objs.length - 1) ∧
    (mABC.removeObject 1).countUniform = mABC.objs.length - 1 := by
  refine ⟨by decide, by decide, by decide, ?_, ?_, ?_⟩
  · exact (c2_swap_compaction_removal.1 mABC 1 0
      (regInv_applyOps _ _ regInv_init (by decide)) (by decide) (by decide) (by decide)).1
  · exact (c2_swap_compaction_removal.1 mABC 1 0
      (regInv_applyOps _ _ regInv_init (by decide)) (by decide) (by decide) (by decide)).2.1
  · exact (c2_swap_compaction_removal.1 mABC 1 0
      (regInv_applyOps _ _ regInv_init (by decide)) (by decide) (by decide) (by decide)).2.2.2.2.2.2

/-- C3: for every well-formed sequence of add/remove/select operations
starting from the fresh registry, after each operation (each prefix) the
count uniform equals the CPU list length, every live object's recorded slot
index equals its position in the CPU list, every index below the count is
some live object's slot, and every live object's slot is below the count —
slots are exactly the contiguous range `[0, count)`. -/
theorem c3_compaction_invariant (ops : List Op)
    (h : okSeq RayMarcher.init ops = true) (k : Nat) :
    (applyOps RayMarcher.init (ops.take k)).countUniform
        = (applyOps RayMarcher.init (ops.take k)).objs.length ∧
    (∀ i oid, (applyOps RayMarcher.init (ops.take k)).objs[i]? = some oid →
      ((applyOps RayMarcher.init (ops.take k)).store oid).index = some i) ∧
    (∀ j, j < (applyOps RayMarcher.init (ops.take k)).countUniform →
      ∃ oid, (applyOps RayMarcher.init (ops.take k)).objs[j]? = some oid ∧
        ((applyOps RayMarcher.init (ops.take k)).store oid).index = some j) ∧
    (∀ oid i, ((applyOps RayMarcher.init (ops.take k)).store oid).index = some i →
      i < (applyOps RayMarcher.init (ops.take k)).countUniform) := by
  have hm := regInv_applyOps RayMarcher.init (ops.take k) regInv_init
    (okSeq_take RayMarcher.init ops k h)
  refine ⟨hm.count_eq, hm.idx_at, ?_, ?_⟩
  · intro j hj
    rw [hm.count_eq] at hj
    refine ⟨(applyOps RayMarcher.init (ops.take k)).objs[j], ?_, ?_⟩
    · exact List.getElem?_eq_getElem hj
    · exact hm.idx_at j _ (List.getElem?_eq_getElem hj)
  · intro oid i hidx
    rw [hm.count_eq]
    exact (List.getElem?_eq_some.mp (hm.at_idx oid i hidx)).1

/-- Witness for C3: the A/B/C add/remove scenario sequence, full prefix. -/
theorem c3_witness :
    okSeq RayMarcher.init [.add 1 recA, .add 2 recB, .add 3 recC, .remove 1] = true ∧
    (applyOps RayMarcher.init
        ([Op.add 1 recA, .add 2 recB, .add 3 recC, .remove 1].take 4)).countUniform
      = (applyOps RayMarcher.init
        ([Op.add 1 recA, .add 2 recB, .add 3 recC, .remove 1].take 4)).objs.length ∧
    ((applyOps RayMarcher.init
        ([Op.add 1 recA, .add 2 recB, .add 3 recC, .remove 1].take 4)).store 3).index
      = some 0 := by
  refine ⟨by decide, ?_, ?_⟩
  · exact (c3_compaction_invariant _ (by decide) 4).1
  · exact (c3_compaction_invariant _ (by decide) 4).2.1 0 3 (by decide)

/-- C10: for every well-formed operation sequence from the fresh registry,
the retained active-object-index uniform equals the active object's current
slot index (and that slot holds the active object), or −1 when there is no
active object; selection follows the object across swap-compaction. -/
theorem c10_active_index_tracks_slot (ops : List Op)
    (h : okSeq RayMarcher.init ops = true) :
    ((applyOps RayMarcher.init ops).active = none →
      (applyOps RayMarcher.init ops).activeIdxUniform = -1) ∧
    (∀ oid, (applyOps RayMarcher.init ops).active = some oid →
      ∃ i, ((applyOps RayMarcher.init ops).store oid).index = some i ∧
        (applyOps RayMarcher.init ops).objs[i]? = some oid ∧
        (applyOps RayMarcher.init ops).activeIdxUniform = (i : Int)) := by
  have hm := regInv_applyOps RayMarcher.init ops regInv_init h
  refine ⟨hm.active_none, ?_⟩
  intro oid hact
  obtain ⟨i, hi, hu⟩ := hm.active_some oid hact
  exact ⟨i, hi, hm.at_idx oid i hi, hu⟩

/-- Witness for C10: select C (slot 2), then remove A so that C is swapped
into slot 0; the uniform follows C to its new slot 0. -/
theorem c10_witness :
    okSeq RayMarcher.init
      [.add 1 recA, .add 2 recB, .add 3 recC, .select (some 3), .remove 1] = true ∧
    (applyOps RayMarcher.init
      [.add 1 recA, .add 2 recB, .add 3 recC, .select (some 3), .remove 1]).active = some 3 ∧
    (applyOps RayMarcher.init
      [.add 1 recA, .add 2 recB, .add 3 recC, .select (some 3), .remove 1]).activeIdxUniform = 0 := by
  refine ⟨by decide, by decide, ?_⟩
  obtain ⟨i, hi, hmem, hu⟩ := (c10_active_index_tracks_slot
    [.add 1 recA, .add 2 recB, .add 3 recC, .select (some 3), .remove 1]
    (by decide)).2 3 (by decide)
  have h0 : ((applyOps RayMarcher.init
      [Op.add 1 recA, .add 2 recB, .add 3 recC, .select (some 3), .remove 1]).store 3).index
      = some 0 := by decide
  rw [h0] at hi
  have hieq : i = 0 := ((Option.some.injEq _ _).mp hi).symm
  rw [hu, hieq]
  rfl

/-! ## Camera (`camera.ts`), over the reals -/

noncomputable section

structure Vec3r where
  x : ℝ
  y : ℝ
  z : ℝ

def Vec3r.zero : Vec3r := ⟨0, 0, 0⟩

def Vec3r.sub (a b : Vec3r) : Vec3r := ⟨a.x - b.x, a.y - b.y, a.z - b.z⟩

def Vec3r.add (a b : Vec3r) : Vec3r := ⟨a.x + b.x, a.y + b.y, a.z + b.z⟩

/-- `vec3.length`: Euclidean length. -/
def Vec3r.length (v : Vec3r) : ℝ := Real.sqrt (v.x ^ 2 + v.y ^ 2 + v.z ^ 2)

/-- JS `Math.atan2(y, x)`. -/
def atan2 (y x : ℝ) : ℝ :=
  if 0 < x then Real.arctan (y / x)
  else if x < 0 then
    (if 0 ≤ y then Real.arctan (y / x) + Real.pi else Real.arctan (y / x) - Real.pi)
  else
    (if 0 < y then Real.pi / 2 else if y < 0 then -(Real.pi / 2) else 0)

/-- The camera state that `orbit` touches (from `camera.ts`). -/
structure Camera where
  position : Vec3r
  target : Vec3r

/-- `Camera.orbit` from `camera.ts`: spherical decomposition of the
position−target offset, azimuth += dx⋅speed, polar −= dy⋅speed, polar
clamped to `[0.1, π − 0.1]`, offset rebuilt around the unchanged target. -/
def Camera.orbit (c : Camera) (dx dy orbitSpeed : ℝ) : Camera :=
  let offset := c.position.sub c.target
  let radius := offset.length
  let theta := atan2 offset.z offset.x
  let phi := Real.arccos (offset.y / radius)
  let theta1 := theta + dx * orbitSpeed
  let phi1 := phi - dy * orbitSpeed
  let phi2 := max 0.1 (min (Real.pi - 0.1) phi1)
  let offset1 : Vec3r :=
    ⟨radius * Real.sin phi2 * Real.cos theta1,
      radius * Real.cos phi2,
      radius * Real.sin phi2 * Real.sin theta1⟩
  { c with position := c.target.add offset1 }

/-- The polar angle of the camera's position−target offset. -/
def Camera.polar (c : Camera) : ℝ :=
  Real.arccos ((c.position.sub c.target).y / (c.position.sub c.target).length)

/-- A finite sequence of `orbit` calls. -/
def Camera.orbitSeq (c : Camera) : List (ℝ × ℝ × ℝ) → Camera
  | [] => c
  | d :: rest => (c.orbit d.1 d.2.1 d.2.2).orbitSeq rest

end

theorem Vec3r.length_nonneg (v : Vec3r) : 0 ≤ v.length := Real.sqrt_nonneg _

theorem Vec3r.length_pos (v : Vec3r) (h : v ≠ Vec3r.zero) : 0 < v.length := by
  rw [Vec3r.length]
  apply Real.sqrt_pos.mpr
  by_contra hle
  push_neg at hle
  have hx : v.x = 0 := by nlinarith [sq_nonneg v.x, sq_nonneg v.y, sq_nonneg v.z]
  have hy : v.y = 0 := by nlinarith [sq_nonneg v.x, sq_nonneg v.y, sq_nonneg v.z]
  have hz : v.z = 0 := by nlinarith [sq_nonneg v.x, sq_nonneg v.y, sq_nonneg v.z]
  apply h
  cases v
  simp_all [Vec3r.zero]

theorem Vec3r.add_sub_cancel_left (a b : Vec3r) : (a.add b).sub a = b := by
  cases a
  cases b
  simp only [Vec3r.add, Vec3r.sub, Vec3r.mk.injEq]
  refine ⟨by ring, by ring, by ring⟩

theorem clamp_bounds (t : ℝ) :
    0.1 ≤ max 0.1 (min (Real.pi - 0.1) t) ∧
    max 0.1 (min (Real.pi - 0.1) t) ≤ Real.pi - 0.1 := by
  constructor
  · exact le_max_left _ _
  · apply max_le
    · nlinarith [Real.pi_gt_three]
    · exact min_le_left _ _

theorem Camera.orbit_target (c : Camera) (dx dy s : ℝ) :
    (c.orbit dx dy s).target = c.target := rfl

theorem Camera.orbit_offset (c : Camera) (dx dy s : ℝ) :
    (c.orbit dx dy s).position.sub c.target =
      ⟨(c.position.sub c.target).length
          * Real.sin (max 0.1 (min (Real.pi - 0.1)
              (Real.arccos ((c.position.sub c.target).y / (c.position.sub c.target).length)
                - dy * s)))
          * Real.cos (atan2 (c.position.sub c.target).z (c.position.sub c.target).x + dx * s),
        (c.position.sub c.target).length
          * Real.cos (max 0.1 (min (Real.pi - 0.1)
              (Real.arccos ((c.position.sub c.target).y / (c.position.sub c.target).length)
                - dy * s))),
        (c.position.sub c.target).length
          * Real.sin (max 0.1 (min (Real.pi - 0.1)
              (Real.arccos ((c.position.sub c.target).y / (c.position.sub c.target).length)
                - dy * s)))
          * Real.sin (atan2 (c.position.sub c.target).z (c.position.sub c.target).x + dx * s)⟩ := by
  unfold Camera.orbit
  dsimp only
  exact Vec3r.add_sub_cancel_left _ _

theorem Camera.orbit_offset_length (c : Camera) (dx dy s : ℝ)
    (h : c.position.sub c.target ≠ Vec3r.zero) :
    ((c.orbit dx dy s).position.sub c.target).length
      = (c.position.sub c.target).length := by
  rw [Camera.orbit_offset]
  set r := (c.position.sub c.target).length with hr
  have hrpos : 0 < r := Vec3r.length_pos _ h
  set phi2 := max 0.1 (min (Real.pi - 0.1)
    (Real.arccos ((c.position.sub c.target).y / r) - dy * s)) with hphi
  set th := atan2 (c.position.sub c.target).z (c.position.sub c.target).x + dx * s with hth
  rw [Vec3r.length]
  have hsum : (r * Real.sin phi2 * Real.cos th) ^ 2 + (r * Real.cos phi2) ^ 2
      + (r * Real.sin phi2 * Real.sin th) ^ 2 = r ^ 2 := by
    have hs := Real.sin_sq_add_cos_sq phi2
    have ht := Real.sin_sq_add_cos_sq th
    linear_combination (r ^ 2 * Real.sin phi2 ^ 2) * ht + r ^ 2 * hs
  rw [hsum]
  exact Real.sqrt_sq (le_of_lt hrpos)

theorem Camera.orbit_polar (c : Camera) (dx dy s : ℝ)
    (h : c.position.sub c.target ≠ Vec3r.zero) :
    (c.orbit dx dy s).polar
      = max 0.1 (min (Real.pi - 0.1)
          (Real.arccos ((c.position.sub c.target).y / (c.position.sub c.target).length)
            - dy * s)) := by
  rw [Camera.polar, Camera.orbit_target, Camera.orbit_offset_length c dx dy s h,
    Camera.orbit_offset]
  set r := (c.position.sub c.target).length with hr
  have hrpos : 0 < r := Vec3r.length_pos _ h
  set phi2 := max 0.1 (min (Real.pi - 0.1)
    (Real.arccos ((c.position.sub c.target).y / r) - dy * s)) with hphi
  dsimp only
  rw [mul_comm r (Real.cos phi2), mul_div_assoc, div_self (ne_of_gt hrpos), mul_one]
  apply Real.arccos_cos
  · have := (clamp_bounds (Real.arccos ((c.position.sub c.target).y / r) - dy * s)).1
    rw [← hphi] at this
    linarith
  · have := (clamp_bounds (Real.arccos ((c.position.sub c.target).y / r) - dy * s)).2
    rw [← hphi] at this
    nlinarith [Real.pi_gt_three]

/-- C8: for every finite sequence of `orbit` calls (arbitrary `dx`, `dy`,
speed) on a camera whose position differs from its target, the target is
unchanged, the offset radius is preserved, and after each call the polar
angle of the position−target offset lies within `[0.1, π − 0.1]`. -/
theorem c8_orbit_polar_clamped (c : Camera)
    (h : c.position.sub c.target ≠ Vec3r.zero) (l : List (ℝ × ℝ × ℝ)) :
    (c.orbitSeq l).target = c.target ∧
    ((c.orbitSeq l).position.sub (c.orbitSeq l).target).length
      = (c.position.sub c.target).length ∧
    (l ≠ [] → (c.orbitSeq l).polar ∈ Set.Icc 0.1 (Real.pi - 0.1)) := by
  induction l generalizing c with
  | nil => exact ⟨rfl, rfl, by simp⟩
  | cons d rest ih =>
    have hne : (c.orbit d.1 d.2.1 d.2.2).position.sub (c.orbit d.1 d.2.1 d.2.2).target
        ≠ Vec3r.zero := by
      rw [Camera.orbit_target]
      intro hz
      have hlen := Camera.orbit_offset_length c d.1 d.2.1 d.2.2 h
      rw [hz] at hlen
      have h0 : Vec3r.zero.length = 0 := by
        simp [Vec3r.length, Vec3r.zero]
      rw [h0] at hlen
      exact absurd hlen.symm (ne_of_gt (Vec3r.length_pos _ h))
    obtain ⟨ht, hlen, hpol⟩ := ih (c.orbit d.1 d.2.1 d.2.2) hne
    refine ⟨?_, ?_, ?_⟩
    · rw [Camera.orbitSeq, ht, Camera.orbit_target]
    · rw [Camera.orbitSeq, hlen, Camera.orbit_target,
        Camera.orbit_offset_length c d.1 d.2.1 d.2.2 h]
    · intro _
      cases rest with
      | nil =>
        rw [Camera.orbitSeq, Camera.orbitSeq]
        rw [Set.mem_Icc, Camera.orbit_polar c d.1 d.2.1 d.2.2 h]
        exact clamp_bounds _
      | cons e rest2 =>
        rw [Camera.orbitSeq]
        exact hpol (by simp)

/-- The camera of `camera.ts` defaults: position (0, 2, 4), target origin. -/
noncomputable def cam0 : Camera := { position := ⟨0, 2, 4⟩, target := ⟨0, 0, 0⟩ }

/-- Witness for C8: one orbit call with an extreme `dy` on the default
camera stays clamped. -/
theorem c8_witness :
    cam0.position.sub cam0.target ≠ Vec3r.zero ∧
    (cam0.orbitSeq [(1, 1000, 1)]).target = cam0.target ∧
    ((cam0.orbitSeq [(1, 1000, 1)]).position.sub
        (cam0.orbitSeq [(1, 1000, 1)]).target).length
      = (cam0.position.sub cam0.target).length ∧
    (cam0.orbitSeq [(1, 1000, 1)]).polar ∈ Set.Icc 0.1 (Real.pi - 0.1) := by
  have hne : cam0.position.sub cam0.target ≠ Vec3r.zero := by
    intro hz
    have hy := congrArg Vec3r.y hz
    norm_num [cam0, Vec3r.sub, Vec3r.zero] at hy
  exact ⟨hne, (c8_orbit_polar_clamped cam0 hne [(1, 1000, 1)]).1,
    (c8_orbit_polar_clamped cam0 hne [(1, 1000, 1)]).2.1,
    (c8_orbit_polar_clamped cam0 hne [(1, 1000, 1)]).2.2 (by simp)⟩

/-! ## The picking part of the ray-marching shader (latest WGSL draft),
over the reals -/

noncomputable section

def Vec3r.dot (a b : Vec3r) : ℝ := a.x * b.x + a.y * b.y + a.z * b.z

def Vec3r.smul (v : Vec3r) (t : ℝ) : Vec3r := ⟨v.x * t, v.y * t, v.z * t⟩

def Vec3r.divv (a b : Vec3r) : Vec3r := ⟨a.x / b.x, a.y / b.y, a.z / b.z⟩

def Vec3r.mulv (a b : Vec3r) : Vec3r := ⟨a.x * b.x, a.y * b.y, a.z * b.z⟩

def Vec3r.absv (v : Vec3r) : Vec3r := ⟨|v.x|, |v.y|, |v.z|⟩

def Vec3r.maxScalar (v : Vec3r) (t : ℝ) : Vec3r := ⟨max v.x t, max v.y t, max v.z t⟩

/-- WGSL `normalize`: `v / length(v)`. -/
def Vec3r.normalize (v : Vec3r) : Vec3r :=
  ⟨v.x / v.length, v.y / v.length, v.z / v.length⟩

structure Vec4r where
  x : ℝ
  y : ℝ
  z : ℝ
  w : ℝ

/-- A 4×4 matrix as its four columns (WGSL `mat4x4<f32>`). -/
structure Mat4 where
  c0 : Vec4r
  c1 : Vec4r
  c2 : Vec4r
  c3 : Vec4r

/-- WGSL `mat4x4 * vec4` (column-major). -/
def Mat4.mulVec (m : Mat4) (v : Vec4r) : Vec4r :=
  ⟨m.c0.x * v.x + m.c1.x * v.y + m.c2.x * v.z + m.c3.x * v.w,
    m.c0.y * v.x + m.c1.y * v.y + m.c2.y * v.z + m.c3.y * v.w,
    m.c0.z * v.x + m.c1.z * v.y + m.c2.z * v.z + m.c3.z * v.w,
    m.c0.w * v.x + m.c1.w * v.y + m.c2.w * v.z + m.c3.w * v.w⟩

/-- WGSL `i32(f)`: truncation toward zero. -/
def wgslI32 (x : ℝ) : ℤ := if x < 0 then -⌊-x⌋ else ⌊x⌋

/-- WGSL `u32(f)`: truncation, clamped at zero. -/
def wgslU32 (x : ℝ) : ℕ := if x < 0 then 0 else (⌊x⌋).toNat

/-- WGSL `clamp(e, lo, hi) = min(max(e, lo), hi)`. -/
def wclamp (e lo hi : ℝ) : ℝ := min (max e lo) hi

/-- `length` of a 2-vector given by components. -/
def length2 (a b : ℝ) : ℝ := Real.sqrt (a ^ 2 + b ^ 2)

/-- `struct Uniforms` of the shader (`mouse` split into components). -/
structure UniformsW where
  resX : ℝ
  resY : ℝ
  mouseX : ℝ
  mouseY : ℝ
  mouseZ : ℝ
  mouseW : ℝ
  time : ℝ
  deltaTime : ℝ
  picking : ℝ
  activeObjIdx : ℝ

/-- `struct Camera` of the shader. -/
structure CameraW where
  position : Vec3r
  invViewProj : Mat4

/-- `struct Object` of the shader (pads elided; `id` renamed `oid`). -/
structure ObjectW where
  position : Vec3r
  rotation : Vec3r
  scale : Vec3r
  color : Vec3r
  primitive : ℝ
  oid : ℝ

def ObjectW.zero : ObjectW :=
  ⟨⟨0, 0, 0⟩, ⟨0, 0, 0⟩, ⟨0, 0, 0⟩, ⟨0, 0, 0⟩, 0, 0⟩

/-- `struct SDFResult`. -/
structure SDFResult where
  dist : ℝ
  mat : ℝ
  idx : ℝ

/-- The shader's bound state: uniforms, camera and the objects storage
array with its count uniform. -/
structure ShaderEnv where
  uniforms : UniformsW
  camera : CameraW
  objects : List ObjectW
  objectCount : ℕ

def MAX_DIST : ℝ := 100.0
def SURF_DIST : ℝ := 0.001
def MAX_STEPS : ℕ := 256

def MAX_DIST_PICK : ℝ := 40.0
def SURF_DIST_PICK : ℝ := 0.1
def MAX_STEPS_PICK : ℕ := 64

def PI_W : ℝ := 3.14159265359

def MAT_OBJ : ℝ := 0.0
def MAT_GIZMO_ARROW : ℝ := 1.0
def MAT_GIZMO : ℝ := 2.0
def MAT_GRID : ℝ := 3.0

def sd_sphere (p : Vec3r) (r : ℝ) : ℝ := p.length - r

def sd_ellipsoid (p radii : Vec3r) : ℝ :=
  let k0 := (p.divv radii).length
  let k1 := (p.divv (radii.mulv radii)).length
  k0 * (k0 - 1) / k1

def sd_box (p b : Vec3r) : ℝ :=
  let q := (p.absv).sub b
  (q.maxScalar 0).length + min (max q.x (max q.y q.z)) 0

def sd_torus (p : Vec3r) (tx ty : ℝ) : ℝ :=
  length2 (length2 p.x p.z - tx) p.y - ty

def sd_cylinder (p : Vec3r) (r h : ℝ) : ℝ :=
  let dx := |length2 p.x p.z| - r
  let dy := |p.y| - h
  min (max dx dy) 0 + length2 (max dx 0) (max dy 0)

def sd_cone (p : Vec3r) (r h : ℝ) : ℝ :=
  let hh := h * 2
  let invLen := 1 / Real.sqrt (hh * hh + r * r)
  let cx := hh * invLen
  let cy := r * invLen
  let q := length2 p.x p.z
  max (cx * q + cy * (p.y - h)) (-hh - p.y + h)

def sd_capsule (p a b : Vec3r) (r : ℝ) : ℝ :=
  let pa := p.sub a
  let ba := b.sub a
  let h := wclamp (pa.dot ba / ba.dot ba) 0 1
  ((pa.sub (ba.smul h)).length) - r

def rotate_x (p : Vec3r) (angle : ℝ) : Vec3r :=
  let c := Real.cos angle
  let s := Real.sin angle
  ⟨p.x, c * p.y - s * p.z, s * p.y + c * p.z⟩

def rotate_y (p : Vec3r) (angle : ℝ) : Vec3r :=
  let c := Real.cos angle
  let s := Real.sin angle
  ⟨c * p.x + s * p.z, p.y, -s * p.x + c * p.z⟩

def rotate_z (p : Vec3r) (angle : ℝ) : Vec3r :=
  let c := Real.cos angle
  let s := Real.sin angle
  ⟨c * p.x - s * p.y, s * p.x + c * p.y, p.z⟩

/-- `sdf_primitive`: per-axis rotation (skipped for zero components), then
the primitive-kind switch. -/
def sdf_primitive (p : Vec3r) (primitiveType : ℕ) (scale rotation : Vec3r) : ℝ :=
  let q0 := p
  let q1 := if rotation.x ≠ 0 then rotate_x q0 (rotation.x / 180 * PI_W) else q0
  let q2 := if rotation.y ≠ 0 then rotate_y q1 (rotation.y / 180 * PI_W) else q1
  let q := if rotation.z ≠ 0 then rotate_z q2 (rotation.z / 180 * PI_W) else q2
  match primitiveType with
  | 0 =>
      if scale.x = scale.x ∧ scale.y = scale.x ∧ scale.z = scale.x then
        sd_sphere q scale.x
      else sd_ellipsoid q scale
  | 1 => sd_box q scale
  | 2 => sd_torus q scale.x scale.y
  | 3 => sd_cylinder q scale.x scale.y
  | 4 => sd_cone q scale.x scale.y
  | 5 =>
      let a : Vec3r := ⟨0, -scale.y * 0.5, 0⟩
      let b : Vec3r := ⟨0, scale.y * 0.5, 0⟩
      sd_capsule q a b scale.x
  | _ => MAX_DIST

/-- `get_dist_obj`: minimum over the live objects, tagging material and
slot index. -/
def get_dist_obj (env : ShaderEnv) (p : Vec3r) : SDFResult :=
  (List.range env.objectCount).foldl
    (fun res i =>
      let obj := env.objects.getD i ObjectW.zero
      let d := sdf_primitive (p.sub obj.position) (wgslU32 obj.primitive) obj.scale obj.rotation
      if d < res.dist then { dist := d, idx := (i : ℝ), mat := MAT_OBJ } else res)
    { dist := MAX_DIST, mat := -1, idx := -1 }

/-- `get_dist_gizmo_arrow`: the three arrowhead cones of the translation
gizmo around the active object (`idx` starts at the WGSL zero-initialized
0). -/
def get_dist_gizmo_arrow (env : ShaderEnv) (p : Vec3r) : SDFResult :=
  let res0 : SDFResult := { dist := MAX_DIST, mat := MAT_GIZMO_ARROW, idx := 0 }
  if env.uniforms.activeObjIdx < 0 then res0
  else
    let trackedObj := env.objects.getD (wgslU32 env.uniforms.activeObjIdx) ObjectW.zero
    let q := p.sub trackedObj.position
    let s := trackedObj.scale.smul 1.2
    let cone_dia : ℝ := 0.1
    let cone_h : ℝ := 0.1
    let x_cone_pos : Vec3r := ⟨s.x + cone_h, 0, 0⟩
    let d1 := sd_cone (rotate_z (q.sub x_cone_pos) (PI_W / 2)) cone_dia cone_h
    let res1 := if d1 < res0.dist then { res0 with dist := d1, idx := 0 } else res0
    let y_cone_pos : Vec3r := ⟨0, s.y + cone_h, 0⟩
    let d2 := sd_cone (q.sub y_cone_pos) cone_dia cone_h
    let res2 := if d2 < res1.dist then { res1 with dist := d2, idx := 1 } else res1
    let z_cone_pos : Vec3r := ⟨0, 0, s.z + cone_h⟩
    let d3 := sd_cone (rotate_x (q.sub z_cone_pos) (-(PI_W / 2))) cone_dia cone_h
    if d3 < res2.dist then { res2 with dist := d3, idx := 2 } else res2

/-- The loop of `pick`: march with the looser pick constants
(`SURF_DIST_PICK = 0.1`, `MAX_DIST_PICK = 40`), stepping against the
objects and — when an object is active — the gizmo arrows (which, as in the
source, replace the object distance whenever their distance is below
`MAX_DIST`). -/
def pickLoop (env : ShaderEnv) (ro rd : Vec3r) : ℝ → ℕ → ℝ × ℝ
  | _, 0 => (-1, -1)
  | t, n + 1 =>
    let p := ro.add (rd.smul t)
    let s0 := get_dist_obj env p
    let s :=
      if 0 ≤ env.uniforms.activeObjIdx then
        let q := get_dist_gizmo_arrow env p
        if q.dist < MAX_DIST then q else s0
      else s0
    let t1 := t + s.dist
    if s.dist < SURF_DIST_PICK then (s.mat, s.idx)
    else if MAX_DIST_PICK < t1 then (-1, -1)
    else pickLoop env ro rd t1 n

/-- `pick`: at most `MAX_STEPS_PICK = 64` iterations, returning
`(material kind, index)` or `(-1, -1)`. -/
def pick (env : ShaderEnv) (ro rd : Vec3r) : ℝ × ℝ :=
  pickLoop env ro rd 0 MAX_STEPS_PICK

/-- The guard of the picking block in `fs_main` (the source line
`i32(fragCoord.x) < i32(uniforms.mouse.x) && i32(fragCoord.y) ==
i32(uniforms.mouse.y) && u32(uniforms.picking) == 1u`). -/
def pickGuard (u : UniformsW) (fragX fragY : ℝ) : Prop :=
  wgslI32 fragX < wgslI32 u.mouseX ∧ wgslI32 fragY = wgslI32 u.mouseY ∧
    wgslU32 u.picking = 1

instance (u : UniformsW) (fragX fragY : ℝ) : Decidable (pickGuard u fragX fragY) :=
  instDecidableAnd

/-- The picking block of `fs_main`, seen from one fragment invocation at
pixel coordinates `(fragX, fragY)`: if the guard holds, the picking ray is
rebuilt from the *mouse* coordinates (not the fragment's own) and the pick
result is written to `objectHitBuffer[0]`; otherwise nothing is written. -/
def fsMainPickWrite (env : ShaderEnv) (fragX fragY : ℝ) : Option (ℝ × ℝ) :=
  if pickGuard env.uniforms fragX fragY then
    let ndc : Vec4r :=
      ⟨env.uniforms.mouseX * 2 / env.uniforms.resX - 1,
        -(env.uniforms.mouseY * 2 / env.uniforms.resY - 1), 1, 1⟩
    let wp := env.camera.invViewProj.mulVec ndc
    let pos3 : Vec3r := ⟨wp.x / wp.w, wp.y / wp.w, wp.z / wp.w⟩
    let ro := env.camera.position
    let rd := (pos3.sub ro).normalize
    some (pick env ro rd)
  else none

end

/-- A concrete picking environment: click at pixel (100, 100), picking
flag set, 800×600 resolution, no objects, no active object. -/
noncomputable def envPick : ShaderEnv where
  uniforms :=
    { resX := 800, resY := 600
      mouseX := 100, mouseY := 100, mouseZ := 1, mouseW := 0
      time := 0, deltaTime := 0
      picking := 1, activeObjIdx := -1 }
  camera :=
    { position := ⟨0, 0, 0⟩
      invViewProj := ⟨⟨1, 0, 0, 0⟩, ⟨0, 1, 0, 0⟩, ⟨0, 0, 1, 0⟩, ⟨0, 0, 0, 1⟩⟩ }
  objects := []
  objectCount := 0

/-- Counterexample to C4 as stated: with the click at pixel (100, 100), the
fragment invocation at exactly that pixel does NOT perform the picking pass
(the guard uses `<`, which excludes equality), while the invocation at
pixel (99, 100) — a different pixel on the same row — DOES write to the
hit-result buffer. -/
theorem c4_counterexample :
    fsMainPickWrite envPick 100 100 = none ∧
    (fsMainPickWrite envPick 99 100).isSome = true := by
  constructor
  · have hg : ¬ pickGuard envPick.uniforms 100 100 := by
      simp only [pickGuard, wgslI32, wgslU32, envPick]
      norm_num
    rw [fsMainPickWrite, if_neg hg]
  · have hg : pickGuard envPick.uniforms 99 100 := by
      simp only [pickGuard, wgslI32, wgslU32, envPick]
      norm_num
    rw [fsMainPickWrite, if_pos hg]
    rfl

/-- C4 (amended): during a picking request, the fragment invocations that
perform the extra cheap marching pass (64 steps, surface threshold 0.1, max
distance 40, against the objects and, when an object is active, the gizmo
arrows) and write its `(material kind, index)` result into the hit-result
buffer are exactly those whose truncated pixel row equals the clicked row
and whose truncated pixel column is strictly LESS than the clicked column —
not the single exactly-matching fragment; all the writing invocations
compute the ray from the clicked coordinate, so they all write the same
value. -/
theorem c4_pick_write_region (env : ShaderEnv) (fragX fragY fragX' fragY' : ℝ) :
    ((fsMainPickWrite env fragX fragY).isSome = true ↔
      (wgslI32 fragX < wgslI32 env.uniforms.mouseX ∧
        wgslI32 fragY = wgslI32 env.uniforms.mouseY ∧
        wgslU32 env.uniforms.picking = 1)) ∧
    (pickGuard env.uniforms fragX fragY → pickGuard env.uniforms fragX' fragY' →
      fsMainPickWrite env fragX fragY = fsMainPickWrite env fragX' fragY') := by
  constructor
  · constructor
    · intro hs
      by_cases hg : pickGuard env.uniforms fragX fragY
      · exact hg
      · rw [fsMainPickWrite, if_neg hg] at hs
        cases hs
    · intro hg
      have hg2 : pickGuard env.uniforms fragX fragY := hg
      rw [fsMainPickWrite, if_pos hg2]
      rfl
  · intro hg hg2
    rw [fsMainPickWrite, if_pos hg, fsMainPickWrite, if_pos hg2]

/-- Witness for C4 (amended): fragments (99, 100) and (0, 100) both satisfy
the actual guard for a click at (100, 100) and write the same value. -/
theorem c4_witness :
    pickGuard envPick.uniforms 99 100 ∧
    pickGuard envPick.uniforms 0 100 ∧
    fsMainPickWrite envPick 99 100 = fsMainPickWrite envPick 0 100 := by
  have h1 : pickGuard envPick.uniforms 99 100 := by
    simp only [pickGuard, wgslI32, wgslU32, envPick]
    norm_num
  have h2 : pickGuard envPick.uniforms 0 100 := by
    simp only [pickGuard, wgslI32, wgslU32, envPick]
    norm_num
  exact ⟨h1, h2, (c4_pick_write_region envPick 99 100 0 100).2 h1 h2⟩
